import Mathlib

/-!
Verification development for the drive-time service-area workflow
(`constructing_drive_time_based_service_areas.ipynb`).

The workflow is a linear client script: geocode a place name, submit a
service-area solve request, unmarshal the returned polygon dictionary into a
typed feature collection, render each polygon with a `ToBreak`-keyed fill
color, repeat the solve across several times of day, and animate the results.

The shallow embedding below models the notebook's client-side data handling
directly: Python dictionaries become Lean structures or association lists,
`list[0]` indexing and dictionary key lookups become `Except`/`Option`
values (an out-of-range index is `Err.indexError`, a missing dictionary key
is `Err.keyError`), the mutation of the shared `fill_symbol` dictionary is
threaded as explicit state, and the map widget's drawn-graphics state is a
list of drawn items rebuilt by replaying an event trace.
-/

namespace DriveTime

/-- Python runtime lookup failures: `IndexError` from out-of-range list
indexing and `KeyError` from a missing dictionary key. -/
inductive Err where
  | indexError
  | keyError
deriving DecidableEq, Repr

/-- Python `l[i]` on a list: the element when `i` is in range, an
`IndexError` otherwise. -/
def pyIndex {α : Type} (l : List α) (i : Nat) : Except Err α :=
  match l.get? i with
  | some x => Except.ok x
  | none => Except.error Err.indexError

/-- Polygon geometry as it travels through the workflow: the notebook never
inspects it, only passes it along, so it is a plain rings payload. -/
structure Geometry where
  rings : List (List (Int × Int))
deriving DecidableEq, Repr

/-- An attribute dictionary (e.g. `FromBreak`, `ToBreak`) as a key-value
association list. -/
abbrev Attrs := List (String × Int)

/-- A spatial-reference dictionary such as `\x7b'latestWkid': 4326\x7d`. -/
abbrev SpatialRef := List (String × Int)

/-- `arcgis.features.Feature`: a geometry plus an attribute dictionary. -/
structure Feature where
  geometry : Geometry
  attributes : Attrs
deriving DecidableEq, Repr

/-- `arcgis.features.FeatureSet`: a feature list plus geometry type and
spatial reference. -/
structure FeatureSet where
  features : List Feature
  geometry_type : String
  spatial_reference : SpatialRef
deriving DecidableEq, Repr

/-- One entry of the response's `saPolygons.features` list: a raw dictionary
holding a geometry and an attribute dictionary. -/
structure PolygonDict where
  geometry : Geometry
  attributes : Attrs
deriving DecidableEq, Repr

/-- The `saPolygons` entry of a solve response: `geometryType`,
`spatialReference` and the polygon feature dictionaries. -/
structure SAPolygons where
  geometryType : String
  spatialReference : SpatialRef
  features : List PolygonDict
deriving DecidableEq, Repr

/-- A solve response as the workflow consumes it: the `saPolygons` feature
collection plus the diagnostic `messages` list. -/
structure SolveResponse where
  saPolygons : SAPolygons
  messages : List String
deriving DecidableEq, Repr

/-- The single-solve unmarshalling loop: `for polygon_dict in
result['saPolygons']['features']: poly_feat_list.append(Feature(...))`. -/
def poly_feat_list (result : SolveResponse) : List Feature :=
  result.saPolygons.features.foldl
    (fun acc polygon_dict =>
      acc ++ [Feature.mk polygon_dict.geometry polygon_dict.attributes]) []

/-- The single-solve `FeatureSet` built from the response:
`FeatureSet(poly_feat_list, geometry_type=..., spatial_reference=...)`. -/
def service_area_fset (result : SolveResponse) : FeatureSet :=
  { features := poly_feat_list result
    geometry_type := result.saPolygons.geometryType
    spatial_reference := result.saPolygons.spatialReference }

/-- The unmarshalling loop body repeated inside the multi-time-of-day cell:
textually the same append loop as `poly_feat_list`. -/
def loop_poly_feat_list (result : SolveResponse) : List Feature :=
  result.saPolygons.features.foldl
    (fun acc polygon_dict =>
      acc ++ [Feature.mk polygon_dict.geometry polygon_dict.attributes]) []

/-- The `FeatureSet` built for one response inside the multi-time-of-day
loop. -/
def loop_service_area_fset (result : SolveResponse) : FeatureSet :=
  { features := loop_poly_feat_list result
    geometry_type := result.saPolygons.geometryType
    spatial_reference := result.saPolygons.spatialReference }

/-- Placeholder feature used as the default of positional `getD` access. -/
def dummyFeature : Feature :=
  { geometry := { rings := [] }, attributes := [] }

/-- Appending one element at a time with `foldl` is `map`. -/
theorem foldl_append_eq_map {α β : Type} (f : α → β) (l : List α)
    (acc : List β) :
    l.foldl (fun a x => a ++ [f x]) acc = acc ++ l.map f := by
  induction l generalizing acc with
  | nil => simp
  | cons x xs ih => simp [List.foldl, ih]

/-- The unmarshalling loop is the elementwise `Feature` constructor map. -/
theorem poly_feat_list_eq_map (result : SolveResponse) :
    poly_feat_list result
      = result.saPolygons.features.map
          (fun polygon_dict =>
            Feature.mk polygon_dict.geometry polygon_dict.attributes) := by
  simpa [poly_feat_list] using
    foldl_append_eq_map
      (fun polygon_dict : PolygonDict =>
        Feature.mk polygon_dict.geometry polygon_dict.attributes)
      result.saPolygons.features []

/-- Placeholder polygon dictionary used as the default of `getD` access. -/
def dummyPolygonDict : PolygonDict :=
  { geometry := { rings := [] }, attributes := [] }

/-- Pointwise reading of a mapped list through `getD`. -/
theorem getD_map_mk (l : List PolygonDict) (i : Nat) (h : i < l.length) :
    (l.map (fun pd => Feature.mk pd.geometry pd.attributes)).getD i
        dummyFeature
      = Feature.mk (l.getD i dummyPolygonDict).geometry
          (l.getD i dummyPolygonDict).attributes := by
  induction l generalizing i with
  | nil => cases h
  | cons x xs ih =>
    cases i with
    | zero => simp
    | succ j =>
      have hj : j < xs.length := Nat.lt_of_succ_lt_succ h
      simpa using ih j hj

/-- Reading an element of the unmarshalled feature list is the `Feature`
constructor applied to the corresponding raw polygon dictionary. -/
theorem getD_poly_feat (result : SolveResponse) (i : Nat)
    (h : i < result.saPolygons.features.length) :
    (poly_feat_list result).getD i dummyFeature
      = Feature.mk
          ((result.saPolygons.features.getD i dummyPolygonDict)).geometry
          ((result.saPolygons.features.getD i dummyPolygonDict)).attributes := by
  rw [poly_feat_list_eq_map]
  exact getD_map_mk _ i h

/-- C1: for every solve response, the constructed `FeatureSet` has exactly as
many features as the response's `saPolygons` entry, the i-th feature keeps
the i-th response feature's geometry and attributes unchanged, and the
`geometry_type` and `spatial_reference` are the response's `geometryType`
and `spatialReference`. -/
theorem c1_response_to_featureset_passthrough (result : SolveResponse) :
    (service_area_fset result).features.length
        = result.saPolygons.features.length ∧
    (∀ i : Nat, i < result.saPolygons.features.length →
      ((service_area_fset result).features.getD i dummyFeature).geometry
          = (result.saPolygons.features.getD i dummyPolygonDict).geometry ∧
      ((service_area_fset result).features.getD i dummyFeature).attributes
          = (result.saPolygons.features.getD i dummyPolygonDict).attributes) ∧
    (service_area_fset result).geometry_type
        = result.saPolygons.geometryType ∧
    (service_area_fset result).spatial_reference
        = result.saPolygons.spatialReference := by
  refine ⟨?_, ?_, rfl, rfl⟩
  · show (poly_feat_list result).length = _
    rw [poly_feat_list_eq_map, List.length_map]
  · intro i h
    have := getD_poly_feat result i h
    constructor
    · show ((poly_feat_list result).getD i dummyFeature).geometry = _
      rw [this]
    · show ((poly_feat_list result).getD i dummyFeature).attributes = _
      rw [this]

/-- Sample geometry used by witnesses. -/
def sampleGeometry : Geometry :=
  { rings := [[(0, 0), (0, 1), (1, 0)]] }

/-- Sample solve response used by witnesses. -/
def sampleResponse : SolveResponse :=
  { saPolygons :=
      { geometryType := "esriGeometryPolygon"
        spatialReference := [("latestWkid", 4326)]
        features :=
          [ { geometry := sampleGeometry
              attributes := [("FromBreak", 0), ("ToBreak", 5)] } ] }
    messages := [] }

/-- Witness for C1 at a concrete one-feature response. -/
theorem c1_witness :
    ((service_area_fset sampleResponse).features.getD 0 dummyFeature).geometry
        = (sampleResponse.saPolygons.features.getD 0
            dummyPolygonDict).geometry ∧
    ((service_area_fset sampleResponse).features.getD 0
        dummyFeature).attributes
      = (sampleResponse.saPolygons.features.getD 0
          dummyPolygonDict).attributes :=
  (c1_response_to_featureset_passthrough sampleResponse).2.1 0 (by decide)

/-- C6: the conversion performed after the single solve and the conversion
performed inside the multi-time-of-day loop compute the same function: for
every response dictionary both yield equal `FeatureSet`s, componentwise and
as wholes. -/
theorem c6_conversion_equivalence (result : SolveResponse) :
    service_area_fset result = loop_service_area_fset result ∧
    (service_area_fset result).features
        = (loop_service_area_fset result).features ∧
    (service_area_fset result).geometry_type
        = (loop_service_area_fset result).geometry_type ∧
    (service_area_fset result).spatial_reference
        = (loop_service_area_fset result).spatial_reference :=
  ⟨rfl, rfl, rfl, rfl⟩

/-- The `ToBreak`-keyed fill-color table: 5 minutes is green, 10 is yellow,
15 is red, each with alpha 90. -/
def colors : List (Int × List Nat) :=
  [(5, [0, 128, 0, 90]), (10, [255, 255, 0, 90]), (15, [255, 0, 0, 90])]

/-- The `fill_symbol` dictionary: a solid simple-fill symbol with an initial
brown color. -/
structure FillSymbol where
  type : String
  style : String
  color : List Nat
deriving DecidableEq, Repr

/-- Initial value of the `fill_symbol` dictionary. -/
def fill_symbol : FillSymbol :=
  { type := "esriSFS", style := "esriSFSSolid", color := [115, 76, 0, 255] }

/-- A popup configuration passed to a draw call. -/
structure Popup where
  title : String
  content : String
deriving DecidableEq, Repr

/-- One `map1.draw(geometry, symbol=..., popup=...)` call: the geometry, the
value of the fill symbol at call time and the popup. -/
structure DrawCall where
  geometry : Geometry
  symbol : FillSymbol
  popup : Popup
deriving DecidableEq, Repr

/-- Python attribute-dictionary access `attributes['ToBreak']`-style key
lookup. -/
def lookupAttr (a : Attrs) (k : String) : Option Int :=
  a.lookup k

/-- Python dictionary access `colors[tb]`: `none` models the `KeyError`
raised for a key outside the table. -/
def lookupColor (tb : Int) : Option (List Nat) :=
  colors.lookup tb

/-- The rendering loop of the notebook: for each service-area feature, set
`fill_symbol['color'] = colors[feature.attributes['ToBreak']]`, build the
popup, and draw the geometry with the (mutated) shared symbol. The mutation
of the shared `fill_symbol` dictionary is threaded as explicit state; the
result is the list of draw calls and the symbol's final value, or the
lookup error the loop raises. -/
def renderLoop : List Feature → FillSymbol → Except Err (List DrawCall × FillSymbol)
  | [], sym => Except.ok ([], sym)
  | service_area :: rest, sym =>
    match lookupAttr service_area.attributes "ToBreak" with
    | none => Except.error Err.keyError
    | some tb =>
      match lookupColor tb with
      | none => Except.error Err.keyError
      | some c =>
        let sym2 : FillSymbol := { sym with color := c }
        let popup : Popup :=
          { title := "Service area", content := toString tb ++ " minutes" }
        match renderLoop rest sym2 with
        | Except.error e => Except.error e
        | Except.ok (calls, symF) =>
          Except.ok (DrawCall.mk service_area.geometry sym2 popup :: calls, symF)

/-- Placeholder draw call used as the default of `getD` access. -/
def dummyDrawCall : DrawCall :=
  { geometry := { rings := [] }
    symbol := fill_symbol
    popup := { title := "", content := "" } }

/-- A successful render pass makes one draw call per feature. -/
theorem renderLoop_length (fs : List Feature) (sym : FillSymbol)
    (calls : List DrawCall) (symF : FillSymbol)
    (h : renderLoop fs sym = Except.ok (calls, symF)) :
    calls.length = fs.length := by
  induction fs generalizing sym calls symF with
  | nil =>
    simp only [renderLoop] at h
    cases h
    rfl
  | cons f rest ih =>
    simp only [renderLoop] at h
    cases hattr : lookupAttr f.attributes "ToBreak" with
    | none =>
      simp only [hattr] at h
      exact Except.noConfusion h
    | some tb =>
      simp only [hattr] at h
      cases hcol : lookupColor tb with
      | none =>
        simp only [hcol] at h
        exact Except.noConfusion h
      | some c =>
        simp only [hcol] at h
        cases hrec : renderLoop rest { sym with color := c } with
        | error e =>
          simp only [hrec] at h
          exact Except.noConfusion h
        | ok p =>
          obtain ⟨cs, sF⟩ := p
          simp only [hrec] at h
          cases h
          simpa using ih _ _ _ hrec

/-- In a successful render pass the i-th draw call's fill color is the table
color of the i-th feature's `ToBreak` attribute, and its geometry is the
i-th feature's geometry. -/
theorem renderLoop_colors (fs : List Feature) (sym : FillSymbol)
    (calls : List DrawCall) (symF : FillSymbol)
    (h : renderLoop fs sym = Except.ok (calls, symF)) :
    ∀ i : Nat, i < fs.length →
      ∃ tb : Int,
        lookupAttr (fs.getD i dummyFeature).attributes "ToBreak" = some tb ∧
        lookupColor tb = some ((calls.getD i dummyDrawCall).symbol.color) ∧
        (calls.getD i dummyDrawCall).geometry
          = (fs.getD i dummyFeature).geometry := by
  induction fs generalizing sym calls symF with
  | nil => intro i hi; cases hi
  | cons f rest ih =>
    simp only [renderLoop] at h
    cases hattr : lookupAttr f.attributes "ToBreak" with
    | none =>
      simp only [hattr] at h
      exact Except.noConfusion h
    | some tb =>
      simp only [hattr] at h
      cases hcol : lookupColor tb with
      | none =>
        simp only [hcol] at h
        exact Except.noConfusion h
      | some c =>
        simp only [hcol] at h
        cases hrec : renderLoop rest { sym with color := c } with
        | error e =>
          simp only [hrec] at h
          exact Except.noConfusion h
        | ok p =>
          obtain ⟨cs, sF⟩ := p
          simp only [hrec] at h
          cases h
          intro i hi
          cases i with
          | zero => exact ⟨tb, by simpa using hattr, by simpa using hcol, by simp⟩
          | succ j =>
            have hj : j < rest.length := Nat.lt_of_succ_lt_succ hi
            simpa using ih _ _ _ hrec j hj

/-- Every draw call of a successful render pass carries the initial symbol's
`type` and `style` unchanged. -/
theorem renderLoop_styles (fs : List Feature) (sym : FillSymbol)
    (calls : List DrawCall) (symF : FillSymbol)
    (h : renderLoop fs sym = Except.ok (calls, symF)) :
    ∀ c ∈ calls, c.symbol.type = sym.type ∧ c.symbol.style = sym.style := by
  induction fs generalizing sym calls symF with
  | nil =>
    simp only [renderLoop] at h
    cases h
    intro c hc
    cases hc
  | cons f rest ih =>
    simp only [renderLoop] at h
    cases hattr : lookupAttr f.attributes "ToBreak" with
    | none =>
      simp only [hattr] at h
      exact Except.noConfusion h
    | some tb =>
      simp only [hattr] at h
      cases hcol : lookupColor tb with
      | none =>
        simp only [hcol] at h
        exact Except.noConfusion h
      | some c =>
        simp only [hcol] at h
        cases hrec : renderLoop rest { sym with color := c } with
        | error e =>
          simp only [hrec] at h
          exact Except.noConfusion h
        | ok p =>
          obtain ⟨cs, sF⟩ := p
          simp only [hrec] at h
          cases h
          intro dc hdc
          cases hdc with
          | head => exact ⟨rfl, rfl⟩
          | tail _ hmem => exact ih _ _ _ hrec dc hmem

/-- A successful render pass preserves the symbol's `type` and `style` in
its final state, leaves the symbol untouched on an empty feature list, and
otherwise ends with the table color of the last feature's `ToBreak`. -/
theorem renderLoop_final (fs : List Feature) (sym : FillSymbol)
    (calls : List DrawCall) (symF : FillSymbol)
    (h : renderLoop fs sym = Except.ok (calls, symF)) :
    symF.type = sym.type ∧ symF.style = sym.style ∧
    (fs = [] → symF = sym) ∧
    (∀ fLast : Feature, fs.getLast? = some fLast →
      ∃ tb : Int, lookupAttr fLast.attributes "ToBreak" = some tb ∧
        lookupColor tb = some symF.color) := by
  induction fs generalizing sym calls symF with
  | nil =>
    simp only [renderLoop] at h
    cases h
    exact ⟨rfl, rfl, fun _ => rfl, fun fLast hlast => by simp at hlast⟩
  | cons f rest ih =>
    simp only [renderLoop] at h
    cases hattr : lookupAttr f.attributes "ToBreak" with
    | none =>
      simp only [hattr] at h
      exact Except.noConfusion h
    | some tb =>
      simp only [hattr] at h
      cases hcol : lookupColor tb with
      | none =>
        simp only [hcol] at h
        exact Except.noConfusion h
      | some c =>
        simp only [hcol] at h
        cases hrec : renderLoop rest { sym with color := c } with
        | error e =>
          simp only [hrec] at h
          exact Except.noConfusion h
        | ok p =>
          obtain ⟨cs, sF⟩ := p
          simp only [hrec] at h
          cases h
          obtain ⟨htype, hstyle, hnil, hlast⟩ := ih _ _ _ hrec
          refine ⟨htype, hstyle, fun habs => List.noConfusion habs, ?_⟩
          intro fLast hfl
          cases rest with
          | nil =>
            simp at hfl
            subst hfl
            refine ⟨tb, hattr, ?_⟩
            rw [hnil rfl]
            simpa using hcol
          | cons r rs =>
            have hfl2 : (r :: rs).getLast? = some fLast := by
              simpa [List.getLast?] using hfl
            exact hlast fLast hfl2

/-- If a feature whose `ToBreak` is outside the color table occurs anywhere
in the feature list, the render loop raises a lookup (`KeyError`) error. -/
theorem renderLoop_keyError (fs : List Feature) (sym : FillSymbol)
    (bad : Feature) (hmem : bad ∈ fs)
    (hbad : ∀ tb : Int,
      lookupAttr bad.attributes "ToBreak" = some tb → lookupColor tb = none) :
    renderLoop fs sym = Except.error Err.keyError := by
  induction fs generalizing sym with
  | nil => cases hmem
  | cons f rest ih =>
    cases hattr : lookupAttr f.attributes "ToBreak" with
    | none => simp [renderLoop, hattr]
    | some tb =>
      cases hmem with
      | head =>
        have hcol := hbad tb hattr
        simp [renderLoop, hattr, hcol]
      | tail _ hmem2 =>
        cases hcol : lookupColor tb with
        | none => simp [renderLoop, hattr, hcol]
        | some c =>
          have hrec := ih { sym with color := c } hmem2
          simp [renderLoop, hattr, hcol, hrec]
/-- Any color the table yields is one of the three configured RGBA values. -/
theorem lookupColor_mem (tb : Int) (c : List Nat) (h : lookupColor tb = some c) :
    c = [0, 128, 0, 90] ∨ c = [255, 255, 0, 90] ∨ c = [255, 0, 0, 90] := by
  simp only [lookupColor, colors, List.lookup] at h
  split at h
  · exact Or.inl (Option.some.inj h).symm
  · split at h
    · exact Or.inr (Or.inl (Option.some.inj h).symm)
    · split at h
      · exact Or.inr (Or.inr (Option.some.inj h).symm)
      · exact Option.noConfusion h

/-- C2: the fill color passed to each draw call is the deterministic image
of the polygon's `ToBreak` under the fixed table 5 to green `[0,128,0,90]`,
10 to yellow `[255,255,0,90]`, 15 to red `[255,0,0,90]`; every other
`ToBreak` value is outside the table, and a polygon carrying one makes the
rendering loop raise a lookup (`KeyError`) error instead of drawing. -/
theorem c2_fill_color_table :
    lookupColor 5 = some [0, 128, 0, 90] ∧
    lookupColor 10 = some [255, 255, 0, 90] ∧
    lookupColor 15 = some [255, 0, 0, 90] ∧
    (∀ tb : Int, tb ≠ 5 → tb ≠ 10 → tb ≠ 15 → lookupColor tb = none) ∧
    (∀ (fs : List Feature) (sym : FillSymbol) (calls : List DrawCall)
        (symF : FillSymbol),
      renderLoop fs sym = Except.ok (calls, symF) →
      ∀ i : Nat, i < fs.length →
        ∃ tb : Int,
          lookupAttr (fs.getD i dummyFeature).attributes "ToBreak" = some tb ∧
          lookupColor tb
            = some ((calls.getD i dummyDrawCall).symbol.color)) ∧
    (∀ (fs : List Feature) (sym : FillSymbol) (bad : Feature),
      bad ∈ fs →
      (∀ tb : Int, lookupAttr bad.attributes "ToBreak" = some tb →
        lookupColor tb = none) →
      renderLoop fs sym = Except.error Err.keyError) := by
  refine ⟨by decide, by decide, by decide, ?_, ?_, ?_⟩
  · intro tb h5 h10 h15
    have e5 : (tb == 5) = false := beq_eq_false_iff_ne.mpr h5
    have e10 : (tb == 10) = false := beq_eq_false_iff_ne.mpr h10
    have e15 : (tb == 15) = false := beq_eq_false_iff_ne.mpr h15
    simp [lookupColor, colors, List.lookup, e5, e10, e15]
  · intro fs sym calls symF h i hi
    obtain ⟨tb, h1, h2, _⟩ := renderLoop_colors fs sym calls symF h i hi
    exact ⟨tb, h1, h2⟩
  · intro fs sym bad hmem hbad
    exact renderLoop_keyError fs sym bad hmem hbad

/-- Witness for C2 at two concrete polygons: `ToBreak = 5` maps to green,
and `ToBreak = 20` makes the loop raise the lookup error. -/
theorem c2_witness :
    (∃ tb : Int,
      lookupAttr (Feature.mk sampleGeometry [("ToBreak", 5)]).attributes
          "ToBreak" = some tb ∧
      lookupColor tb = some [0, 128, 0, 90]) ∧
    renderLoop [Feature.mk sampleGeometry [("ToBreak", 20)]] fill_symbol
        = Except.error Err.keyError := by
  constructor
  · obtain ⟨tb, h1, h2⟩ :=
      c2_fill_color_table.2.2.2.2.1
        [Feature.mk sampleGeometry [("ToBreak", 5)]] fill_symbol
        [DrawCall.mk sampleGeometry
          (FillSymbol.mk "esriSFS" "esriSFSSolid" [0, 128, 0, 90])
          (Popup.mk "Service area" "5 minutes")]
        (FillSymbol.mk "esriSFS" "esriSFSSolid" [0, 128, 0, 90])
        (by rfl) 0 (by decide)
    exact ⟨tb, by simpa using h1, by simpa using h2⟩
  · exact
      c2_fill_color_table.2.2.2.2.2
        [Feature.mk sampleGeometry [("ToBreak", 20)]] fill_symbol
        (Feature.mk sampleGeometry [("ToBreak", 20)])
        (List.mem_singleton.mpr rfl)
        (fun tb h => by
          simp [lookupAttr, List.lookup] at h
          subst h
          decide)

/-- C8: every draw call of the rendering loop receives the shared
`fill_symbol` with its `type` and `style` entries unchanged (only the
`color` entry is reassigned; the mutation of the shared dictionary is
threaded as state), and after a successful pass over a nonempty feature
list the symbol's final `color` is the table color of the last polygon's
`ToBreak`, no longer the initial `[115, 76, 0, 255]`. -/
theorem c8_fill_symbol_mutation (fs : List Feature) (calls : List DrawCall)
    (symF : FillSymbol)
    (h : renderLoop fs fill_symbol = Except.ok (calls, symF)) :
    (∀ c ∈ calls,
      c.symbol.type = fill_symbol.type ∧
      c.symbol.style = fill_symbol.style) ∧
    symF.type = fill_symbol.type ∧ symF.style = fill_symbol.style ∧
    (fs = [] → symF = fill_symbol) ∧
    (∀ fLast : Feature, fs.getLast? = some fLast →
      ∃ tb : Int, lookupAttr fLast.attributes "ToBreak" = some tb ∧
        lookupColor tb = some symF.color ∧
        symF.color ≠ [115, 76, 0, 255]) := by
  obtain ⟨htype, hstyle, hnil, hlast⟩ :=
    renderLoop_final fs fill_symbol calls symF h
  refine ⟨renderLoop_styles fs fill_symbol calls symF h, htype, hstyle,
    hnil, ?_⟩
  intro fLast hfl
  obtain ⟨tb, h1, h2⟩ := hlast fLast hfl
  refine ⟨tb, h1, h2, ?_⟩
  rcases lookupColor_mem tb symF.color h2 with h3 | h3 | h3 <;>
    rw [h3] <;> decide

/-- Witness for C8 at a concrete one-polygon pass with `ToBreak = 5`. -/
theorem c8_witness :
    ∃ tb : Int,
      lookupAttr (Feature.mk sampleGeometry [("ToBreak", 5)]).attributes
          "ToBreak" = some tb ∧
      lookupColor tb = some [0, 128, 0, 90] ∧
      ([0, 128, 0, 90] : List Nat) ≠ [115, 76, 0, 255] := by
  have h :=
    (c8_fill_symbol_mutation [Feature.mk sampleGeometry [("ToBreak", 5)]]
      [DrawCall.mk sampleGeometry
        (FillSymbol.mk "esriSFS" "esriSFSSolid" [0, 128, 0, 90])
        (Popup.mk "Service area" "5 minutes")]
      (FillSymbol.mk "esriSFS" "esriSFSSolid" [0, 128, 0, 90])
      (by rfl)).2.2.2.2 (Feature.mk sampleGeometry [("ToBreak", 5)])
      (by decide)
  simpa using h

/-- Sum of a constant map is length times the constant. -/
theorem sum_map_const {α : Type} (l : List α) (k : Nat) :
    (l.map (fun _ => k)).sum = l.length * k := by
  induction l with
  | nil => simp
  | cons x xs ih => simp [ih, Nat.succ_mul, Nat.add_comm]

/-- Modelled from the spec: the concentric rings of a service area pair
each break threshold with the preceding one (0 before the first), giving
the `FromBreak`/`ToBreak` tags of the returned polygons. -/
def breakPairsAux : Int → List Int → List (Int × Int)
  | _, [] => []
  | prev, b :: bs => (prev, b) :: breakPairsAux b bs

/-- Break thresholds paired with their predecessors, starting from 0. -/
def breakPairs (default_breaks : List Int) : List (Int × Int) :=
  breakPairsAux 0 default_breaks

/-- Pairing preserves the number of thresholds. -/
theorem breakPairsAux_length (prev : Int) (bs : List Int) :
    (breakPairsAux prev bs).length = bs.length := by
  induction bs generalizing prev with
  | nil => rfl
  | cons b bs ih => simp [breakPairsAux, ih]

/-- Modelled from the spec: the remote service-area solve endpoint (spec
sections 4.3 and 6), which is not part of this repository's source. Given
facility point features, break thresholds and a travel direction it returns
a response whose `saPolygons` entry holds exactly one polygon feature per
(facility, break) combination, each tagged with `FromBreak`/`ToBreak`
attributes; the polygon boundary computed by the remote road-network solver
is abstracted as the oracle `geo`. -/
def solve_service_area (geo : Feature → Int → Int → Geometry)
    (facilities : FeatureSet) (default_breaks : List Int)
    (travel_direction : String) : SolveResponse :=
  { saPolygons :=
      { geometryType := "esriGeometryPolygon"
        spatialReference := facilities.spatial_reference
        features :=
          facilities.features.flatMap (fun fac =>
            (breakPairs default_breaks).map (fun fb =>
              PolygonDict.mk (geo fac fb.1 fb.2)
                [("FromBreak", fb.1), ("ToBreak", fb.2)])) }
    messages := [] }

/-- C4: a solve call returns exactly one polygon per requested
(facility, break) combination; in particular, one facility with
`default_breaks = [5, 10, 15]` and travel direction from-facility yields
exactly 3 polygons whose `ToBreak` attribute values are exactly 5, 10
and 15. -/
theorem c4_one_polygon_per_facility_break
    (geo : Feature → Int → Int → Geometry) (facilities : FeatureSet)
    (default_breaks : List Int) (travel_direction : String) :
    (solve_service_area geo facilities default_breaks
        travel_direction).saPolygons.features.length
      = facilities.features.length * default_breaks.length ∧
    ∀ (fac : Feature) (gt : String) (sr : SpatialRef),
      (solve_service_area geo (FeatureSet.mk [fac] gt sr) [5, 10, 15]
          "esriNATravelDirectionFromFacility").saPolygons.features.length
        = 3 ∧
      (solve_service_area geo (FeatureSet.mk [fac] gt sr) [5, 10, 15]
          "esriNATravelDirectionFromFacility").saPolygons.features.map
            (fun pd => lookupAttr pd.attributes "ToBreak")
        = [some 5, some 10, some 15] := by
  constructor
  · show (facilities.features.flatMap _).length = _
    rw [List.length_flatMap]
    have hlen : ∀ fac : Feature,
        ((breakPairs default_breaks).map (fun fb =>
          PolygonDict.mk (geo fac fb.1 fb.2)
            [("FromBreak", fb.1), ("ToBreak", fb.2)])).length
          = default_breaks.length := by
      intro fac
      rw [List.length_map]
      exact breakPairsAux_length 0 default_breaks
    calc (facilities.features.map _).sum
        = (facilities.features.map (fun _ => default_breaks.length)).sum := by
          congr 1
          exact List.map_congr_left (fun fac _ => hlen fac)
      _ = facilities.features.length * default_breaks.length :=
          sum_map_const facilities.features default_breaks.length
  · intro fac gt sr
    exact ⟨rfl, rfl⟩

/-- Modelled from the spec: parameter validation at the solve endpoint
(spec sections 4.3 and 7), not part of this repository's source. A
travel-mode name outside the server's supported catalog does not raise an
exception: the endpoint still returns a normal response dictionary, with an
empty polygon collection, and surfaces the problem as a diagnostic message
in the response's `messages` entry. -/
def solve_service_area_checked (geo : Feature → Int → Int → Geometry)
    (supportedTravelModes : List String) (travel_mode : String)
    (facilities : FeatureSet) (default_breaks : List Int)
    (travel_direction : String) : SolveResponse :=
  if supportedTravelModes.contains travel_mode then
    solve_service_area geo facilities default_breaks travel_direction
  else
    { saPolygons :=
        { geometryType := "esriGeometryPolygon"
          spatialReference := facilities.spatial_reference
          features := [] }
      messages := [String.append "Unsupported travel mode: " travel_mode] }

/-- C7: a solve call with a malformed parameter combination (an unsupported
travel-mode name) still returns a response dictionary normally — the result
always decomposes into an `saPolygons` entry and a `messages` entry — and
the error is carried in the `messages` entry rather than raised. -/
theorem c7_solver_errors_in_messages (geo : Feature → Int → Int → Geometry)
    (supportedTravelModes : List String) (travel_mode : String)
    (facilities : FeatureSet) (default_breaks : List Int)
    (travel_direction : String) :
    (∃ (sa : SAPolygons) (msgs : List String),
      solve_service_area_checked geo supportedTravelModes travel_mode
          facilities default_breaks travel_direction
        = SolveResponse.mk sa msgs) ∧
    (supportedTravelModes.contains travel_mode = false →
      (solve_service_area_checked geo supportedTravelModes travel_mode
          facilities default_breaks travel_direction).messages
        = [String.append "Unsupported travel mode: " travel_mode]) := by
  constructor
  · exact ⟨_, _, rfl⟩
  · intro hmode
    have hmem : travel_mode ∉ supportedTravelModes := by simpa using hmode
    simp [solve_service_area_checked, hmem]

/-- Witness for C7 at a concrete unsupported travel-mode name. -/
theorem c7_witness :
    (solve_service_area_checked (fun _ _ _ => sampleGeometry)
        ["Driving Time", "Walking Time"] "Teleportation"
        (FeatureSet.mk [] "esriGeometryPoint" [("latestWkid", 4326)])
        [5, 10, 15] "esriNATravelDirectionFromFacility").messages
      = [String.append "Unsupported travel mode: " "Teleportation"] :=
  (c7_solver_errors_in_messages (fun _ _ _ => sampleGeometry)
    ["Driving Time", "Walking Time"] "Teleportation"
    (FeatureSet.mk [] "esriGeometryPoint" [("latestWkid", 4326)])
    [5, 10, 15] "esriNATravelDirectionFromFacility").2 (by decide)

/-- A geocoding candidate: a coordinate pair plus a matched address. -/
structure GeoCandidate where
  location : Int × Int
  address : String
deriving DecidableEq, Repr

/-- The notebook's geocoding access pattern `geocode(place)[0]`: take the
first candidate of the returned ranked list. -/
def geocode_first (candidates : List GeoCandidate) : Except Err GeoCandidate :=
  pyIndex candidates 0

/-- C5: when geocoding returns an empty candidate list the workflow's next
step raises an index error — the no-match signal — instead of proceeding;
whenever it does proceed, it proceeds with the first returned candidate,
never with undefined coordinates. -/
theorem c5_geocode_empty_signals (candidates : List GeoCandidate) :
    (candidates = [] →
      geocode_first candidates = Except.error Err.indexError) ∧
    (∀ c : GeoCandidate, geocode_first candidates = Except.ok c →
      candidates.head? = some c) := by
  constructor
  · intro h
    subst h
    rfl
  · intro c h
    cases candidates with
    | nil => exact Except.noConfusion h
    | cons x xs =>
      simp [geocode_first, pyIndex] at h
      subst h
      rfl

/-- Sample geocoding candidate used by witnesses. -/
def sampleCandidate : GeoCandidate :=
  { location := (-117, 32), address := "San Diego Convention Center" }

/-- Witness for C5: the empty candidate list signals the error, a singleton
list yields its unique candidate. -/
theorem c5_witness :
    geocode_first [] = Except.error Err.indexError ∧
    ([sampleCandidate].head? = some sampleCandidate) :=
  ⟨(c5_geocode_empty_signals []).1 rfl,
   (c5_geocode_empty_signals [sampleCandidate]).2 sampleCandidate rfl⟩

/-- A travel-mode catalog entry: a named configuration bundle. -/
structure TravelMode where
  name : String
  impedanceAttributeName : String
deriving DecidableEq, Repr

/-- The notebook's travel-mode selection:
`[t for t in travel_modes['supportedTravelModes'] if t['name'] == 'Driving
Time'][0]`. -/
def truck_mode_select (supportedTravelModes : List TravelMode) :
    Except Err TravelMode :=
  pyIndex (supportedTravelModes.filter (fun t => t.name == "Driving Time")) 0

/-- The head of a filtered list is the first element satisfying the
predicate. -/
theorem head?_filter_eq_find? {α : Type} (p : α → Bool) (l : List α) :
    (l.filter p).head? = l.find? p := by
  induction l with
  | nil => rfl
  | cons x xs ih =>
    cases hx : p x with
    | true => simp [List.filter_cons, List.find?_cons, hx]
    | false => simp [List.filter_cons, List.find?_cons, hx, ih]

/-- C10: travel-mode selection returns the first catalog entry whose name is
exactly "Driving Time"; when no catalog entry has that name, the selection
raises an out-of-range indexing error instead of returning a default
mode. -/
theorem c10_travel_mode_selection (supportedTravelModes : List TravelMode) :
    ((∀ t ∈ supportedTravelModes, t.name ≠ "Driving Time") →
      truck_mode_select supportedTravelModes
        = Except.error Err.indexError) ∧
    (∀ tm : TravelMode,
      truck_mode_select supportedTravelModes = Except.ok tm →
      tm.name = "Driving Time" ∧
      supportedTravelModes.find? (fun t => t.name == "Driving Time")
        = some tm) := by
  constructor
  · intro hnone
    have hfil : supportedTravelModes.filter
        (fun t => t.name == "Driving Time") = [] := by
      rw [List.filter_eq_nil_iff]
      intro t ht
      simpa using hnone t ht
    simp [truck_mode_select, hfil, pyIndex]
  · intro tm h
    have hh : (supportedTravelModes.filter
        (fun t => t.name == "Driving Time")).head? = some tm := by
      cases hfil : supportedTravelModes.filter
          (fun t => t.name == "Driving Time") with
      | nil =>
        rw [truck_mode_select, hfil] at h
        exact Except.noConfusion h
      | cons x xs =>
        rw [truck_mode_select, hfil] at h
        simp [pyIndex] at h
        simp [h]
    have hfind : supportedTravelModes.find?
        (fun t => t.name == "Driving Time") = some tm :=
      (head?_filter_eq_find? (fun t => t.name == "Driving Time")
        supportedTravelModes) ▸ hh
    refine ⟨?_, hfind⟩
    have := List.find?_some hfind
    simpa using this

/-- Witness for C10: a catalog without "Driving Time" raises the index
error; a catalog containing it selects that first matching entry. -/
theorem c10_witness :
    truck_mode_select [TravelMode.mk "Walking Time" "WalkTime"]
        = Except.error Err.indexError ∧
    ((TravelMode.mk "Driving Time" "TravelTime").name = "Driving Time" ∧
      ([TravelMode.mk "Walking Time" "WalkTime",
        TravelMode.mk "Driving Time" "TravelTime"].find?
          (fun t => t.name == "Driving Time"))
        = some (TravelMode.mk "Driving Time" "TravelTime")) :=
  ⟨(c10_travel_mode_selection [TravelMode.mk "Walking Time" "WalkTime"]).1
      (by decide),
   (c10_travel_mode_selection [TravelMode.mk "Walking Time" "WalkTime",
      TravelMode.mk "Driving Time" "TravelTime"]).2
      (TravelMode.mk "Driving Time" "TravelTime") (by rfl)⟩

/-- One step of the multi-time-of-day loop, as events: the blocking solve
request and the response it waits for. -/
inductive SolveEv where
  | call (daytime : Int)
  | ret (result : SolveResponse)
deriving DecidableEq, Repr

/-- The event trace of `for daytime in times: result =
sa_layer.solve_service_area(...); sa_results.append(result)`: each call is
answered before the next call is issued. -/
def solveEvents (solver : Int → SolveResponse) : List Int → List SolveEv
  | [] => []
  | daytime :: ts =>
    SolveEv.call daytime :: SolveEv.ret (solver daytime)
      :: solveEvents solver ts

/-- The accumulated `sa_results` list of the multi-time-of-day loop. -/
def sa_results (solver : Int → SolveResponse) (times : List Int) :
    List SolveResponse :=
  times.foldl (fun acc daytime => acc ++ [solver daytime]) []

/-- The time-of-day values requested of the solver, in request order. -/
def callsOf (evs : List SolveEv) : List Int :=
  evs.filterMap (fun e =>
    match e with
    | SolveEv.call t => some t
    | SolveEv.ret _ => none)

/-- The `SD_fset_list` accumulation: one converted `FeatureSet` per
response, appended in response order. -/
def SD_fset_list (results : List SolveResponse) : List FeatureSet :=
  results.foldl (fun acc result => acc ++ [loop_service_area_fset result]) []

/-- Map-widget events of the animation cell. -/
inductive Ev where
  | clear
  | print (lbl : String)
  | draw (f : FeatureSet)
deriving DecidableEq, Repr

/-- The inner animation pass `j = 0; for fset in SD_fset_list:
print(times[j]); map2.draw(fset); j += 1`, consuming one label per drawn
`FeatureSet`; running out of labels is the `IndexError` that `times[j]`
would raise. -/
def passBody : List FeatureSet → List String → Except Err (List Ev)
  | [], _ => Except.ok []
  | _ :: _, [] => Except.error Err.indexError
  | f :: fs, lbl :: lbls =>
    match passBody fs lbls with
    | Except.error e => Except.error e
    | Except.ok evs => Except.ok (Ev.print lbl :: Ev.draw f :: evs)

/-- The notebook's `loop = 3`. -/
def loopCount : Nat := 3

/-- The animation's time-of-day labels
`times = ['6 am', '10 am', '2 pm', '6 pm', '10 pm']`. -/
def animLabels : List String := ["6 am", "10 am", "2 pm", "6 pm", "10 pm"]

/-- The full animation cell: one initial `clear_graphics`, then `loopCount`
passes, each starting with `clear_graphics` followed by its print/draw
pairs. -/
def animEvents (fsets : List FeatureSet) (labels : List String) :
    Except Err (List Ev) :=
  match passBody fsets labels with
  | Except.error e => Except.error e
  | Except.ok body =>
    Except.ok
      (Ev.clear :: (List.replicate loopCount (Ev.clear :: body)).flatten)

/-- One event applied to the map widget's drawn-graphics state:
`clear_graphics` empties it, a draw appends, a print leaves it alone. -/
def applyEv : List FeatureSet → Ev → List FeatureSet
  | _, Ev.clear => []
  | s, Ev.print _ => s
  | s, Ev.draw f => s ++ [f]

/-- The drawn-graphics state after replaying a list of events. -/
def applyEvs (s : List FeatureSet) (evs : List Ev) : List FeatureSet :=
  evs.foldl applyEv s

/-- The `FeatureSet`s drawn by a list of events, in drawing order. -/
def drawsOf (evs : List Ev) : List FeatureSet :=
  evs.filterMap (fun e =>
    match e with
    | Ev.draw f => some f
    | _ => none)

/-- The solve-loop trace is the strict alternation of call/response
pairs. -/
theorem solveEvents_eq_flatMap (solver : Int → SolveResponse)
    (times : List Int) :
    solveEvents solver times
      = times.flatMap (fun t =>
          [SolveEv.call t, SolveEv.ret (solver t)]) := by
  induction times with
  | nil => rfl
  | cons t ts ih => simp [solveEvents, ih]

/-- The requested times of the solve-loop trace are the input list. -/
theorem callsOf_solveEvents (solver : Int → SolveResponse)
    (times : List Int) :
    callsOf (solveEvents solver times) = times := by
  induction times with
  | nil => rfl
  | cons t ts ih =>
    simp only [callsOf] at ih
    simp [callsOf, solveEvents, List.filterMap_cons, ih]

/-- The accumulated response list is the elementwise solver image of the
time list. -/
theorem sa_results_eq_map (solver : Int → SolveResponse)
    (times : List Int) :
    sa_results solver times = times.map solver := by
  simpa [sa_results] using foldl_append_eq_map solver times []

/-- The accumulated `FeatureSet` list is the elementwise conversion of the
response list. -/
theorem SD_fset_list_eq_map (results : List SolveResponse) :
    SD_fset_list results = results.map loop_service_area_fset := by
  simpa [SD_fset_list] using
    foldl_append_eq_map loop_service_area_fset results []

/-- A successful pass interleaves one print and one draw per `FeatureSet`,
with the labels consumed in order. -/
theorem passBody_ok_spec (fs : List FeatureSet) (lbls : List String)
    (evs : List Ev) (h : passBody fs lbls = Except.ok evs) :
    evs = (fs.zip lbls).flatMap
        (fun fl => [Ev.print fl.2, Ev.draw fl.1]) := by
  induction fs generalizing lbls evs with
  | nil =>
    simp only [passBody] at h
    cases h
    simp
  | cons f fs ih =>
    cases lbls with
    | nil => exact Except.noConfusion h
    | cons l ls =>
      simp only [passBody] at h
      cases hrec : passBody fs ls with
      | error e =>
        simp only [hrec] at h
        exact Except.noConfusion h
      | ok evs2 =>
        simp only [hrec] at h
        cases h
        simp [ih ls evs2 hrec]

/-- A successful pass draws exactly the `FeatureSet` list, in order. -/
theorem drawsOf_passBody (fs : List FeatureSet) (lbls : List String)
    (evs : List Ev) (h : passBody fs lbls = Except.ok evs) :
    drawsOf evs = fs := by
  induction fs generalizing lbls evs with
  | nil =>
    simp only [passBody] at h
    cases h
    rfl
  | cons f fs ih =>
    cases lbls with
    | nil => exact Except.noConfusion h
    | cons l ls =>
      simp only [passBody] at h
      cases hrec : passBody fs ls with
      | error e =>
        simp only [hrec] at h
        exact Except.noConfusion h
      | ok evs2 =>
        simp only [hrec] at h
        cases h
        have ihh := ih ls evs2 hrec
        simp only [drawsOf, List.filterMap_cons] at ihh ⊢
        simp [ihh]

/-- Replaying any prefix of a successful pass's events on any starting
state yields a state that extends the start only by a prefix of the pass's
own `FeatureSet` list. -/
theorem passBody_states (fs : List FeatureSet) (lbls : List String)
    (evs : List Ev) (h : passBody fs lbls = Except.ok evs) :
    ∀ (s : List FeatureSet) (k : Nat),
      applyEvs s (evs.take k) <+: s ++ fs := by
  induction fs generalizing lbls evs with
  | nil =>
    simp only [passBody] at h
    cases h
    intro s k
    rw [List.take_nil]
    exact List.prefix_append s []
  | cons f fs ih =>
    cases lbls with
    | nil => exact Except.noConfusion h
    | cons l ls =>
      simp only [passBody] at h
      cases hrec : passBody fs ls with
      | error e =>
        simp only [hrec] at h
        exact Except.noConfusion h
      | ok evs2 =>
        simp only [hrec] at h
        cases h
        intro s k
        cases k with
        | zero => exact List.prefix_append s (f :: fs)
        | succ k1 =>
          cases k1 with
          | zero => exact List.prefix_append s (f :: fs)
          | succ k2 =>
            have hih := ih ls evs2 hrec (s ++ [f]) k2
            have heq :
                applyEvs s ((Ev.print l :: Ev.draw f :: evs2).take
                    (k2 + 1 + 1))
                  = applyEvs (s ++ [f]) (evs2.take k2) := rfl
            rw [heq, show s ++ f :: fs = (s ++ [f]) ++ fs by simp]
            exact hih

/-- C3: for a list of K requested time-of-day samples the loop trace is the
strict alternation of K call/response pairs in list order — each solve call
is answered before the next is issued — it accumulates exactly K responses
and exactly K converted `FeatureSet`s in that same order, and a successful
animation pass draws those K `FeatureSet`s in exactly that order. -/
theorem c3_sequential_k_solves (solver : Int → SolveResponse)
    (times : List Int) :
    solveEvents solver times
        = times.flatMap (fun t =>
            [SolveEv.call t, SolveEv.ret (solver t)]) ∧
    callsOf (solveEvents solver times) = times ∧
    sa_results solver times = times.map solver ∧
    (sa_results solver times).length = times.length ∧
    SD_fset_list (sa_results solver times)
        = times.map (fun t => loop_service_area_fset (solver t)) ∧
    (SD_fset_list (sa_results solver times)).length = times.length ∧
    (∀ (labels : List String) (evs : List Ev),
      passBody (SD_fset_list (sa_results solver times)) labels
          = Except.ok evs →
      drawsOf evs = SD_fset_list (sa_results solver times)) := by
  have hres := sa_results_eq_map solver times
  have hfl : SD_fset_list (sa_results solver times)
      = times.map (fun t => loop_service_area_fset (solver t)) := by
    rw [SD_fset_list_eq_map, hres, List.map_map]
    rfl
  refine ⟨solveEvents_eq_flatMap solver times,
    callsOf_solveEvents solver times, hres, ?_, hfl, ?_, ?_⟩
  · rw [hres, List.length_map]
  · rw [hfl, List.length_map]
  · intro labels evs h
    exact drawsOf_passBody _ labels evs h

/-- Witness for C3 at a concrete two-sample run against a constant
solver. -/
theorem c3_witness :
    drawsOf [Ev.print "6 am",
        Ev.draw (loop_service_area_fset sampleResponse),
        Ev.print "10 am",
        Ev.draw (loop_service_area_fset sampleResponse)]
      = SD_fset_list (sa_results (fun _ => sampleResponse) [0, 1]) :=
  (c3_sequential_k_solves (fun _ => sampleResponse) [0, 1]).2.2.2.2.2.2
    animLabels
    [Ev.print "6 am", Ev.draw (loop_service_area_fset sampleResponse),
     Ev.print "10 am", Ev.draw (loop_service_area_fset sampleResponse)]
    (by rfl)

/-- C9: a successful animation replays the per-time `FeatureSet` list
exactly `loopCount = 3` times, each pass opening with `clear_graphics` and
interleaving the j-th time label's print right before the j-th draw; and
from any starting state, replaying any nonempty prefix of a pass leaves on
the map only a prefix of that pass's own `FeatureSet` list — never
graphics of an earlier pass. -/
theorem c9_animation_replay (fsets : List FeatureSet) (labels : List String)
    (body : List Ev) (h : passBody fsets labels = Except.ok body) :
    animEvents fsets labels
        = Except.ok
            (Ev.clear
              :: (List.replicate loopCount (Ev.clear :: body)).flatten) ∧
    loopCount = 3 ∧
    body = (fsets.zip labels).flatMap
        (fun fl => [Ev.print fl.2, Ev.draw fl.1]) ∧
    (∀ (s : List FeatureSet) (k : Nat),
      applyEvs s ((Ev.clear :: body).take (k + 1)) <+: fsets) := by
  refine ⟨by simp [animEvents, h], rfl,
    passBody_ok_spec fsets labels body h, ?_⟩
  intro s k
  have heq : applyEvs s ((Ev.clear :: body).take (k + 1))
      = applyEvs [] (body.take k) := rfl
  rw [heq]
  simpa using passBody_states fsets labels body h [] k

/-- Witness for C9 at a concrete one-FeatureSet animation. -/
theorem c9_witness :
    applyEvs []
        ((Ev.clear :: [Ev.print "6 am",
            Ev.draw (loop_service_area_fset sampleResponse)]).take 2)
      <+: [loop_service_area_fset sampleResponse] :=
  (c9_animation_replay [loop_service_area_fset sampleResponse] animLabels
    [Ev.print "6 am", Ev.draw (loop_service_area_fset sampleResponse)]
    (by rfl)).2.2.2 [] 1

end DriveTime
